import Mathlib

/-!
Shallow embedding of the go-oauth2 MongoDB storage adapter
(`client_store.go`, `token_store.go`).

Modelling conventions:
- Time is unix time in whole seconds (`Int`); Go durations are likewise
  modelled in whole seconds.  Go's `Time.Second()` (the second offset
  within the minute, range 0..59) is `t % 60` (`Int.emod`, always in
  [0, 60)).
- A Mongo collection is an association list keyed by the `_id` field.
  `InsertOne` fails with `duplicateKey` when the `_id` is already
  present; `FindOne` fails with `notFound` when no document matches;
  `DeleteOne` removes the first match and never fails.
- `json.Marshal(info)` / `json.Unmarshal` are modelled as the identity
  on `TokenInfo` (an injective, never-failing encoding): a basic
  document's `Data` field simply holds the `TokenInfo`.
- The session wrappers `colHandler` / `dbHandler` call
  `session.StartTransaction()` but then shadow the session context with
  a fresh `context.WithTimeout(context.Background(), ...)` and pass that
  to the inner function.  In the Mongo Go driver an operation joins a
  session's transaction only through the session context, so every
  `InsertOne` / `FindOne` / `DeleteOne` here runs outside the started
  transaction and takes effect immediately; `AbortTransaction` aborts an
  empty transaction and rolls nothing back.  The wrapper therefore keeps
  whatever state the inner operations produced — including partial
  states after a mid-way fault — and, since abort and commit themselves
  succeed in this model (no transport faults on the session calls),
  returns `none` in both branches: the Go code returns
  `session.AbortTransaction(ctx)` instead of the inner error.
- `primitive.NewObjectID().Hex()` is nondeterministic; the generated id
  is passed to `Create` as an explicit argument `gid`.
- The Go `payloads` map iterates in nondeterministic order; the model
  inserts in the fixed order basic, access, refresh — one of the orders
  the map can produce.  A fault-free grant is order-independent
  (distinct collections under the default config names); after a mid-way
  fault, which rows persist depends on the order, and the
  basic-before-index order modelled here is the one relevant to the
  stated claims.
-/

namespace OAuth2Mongo

/-- Unix time in whole seconds. -/
abbrev Time := Int

/-- Go `time.Time.Second()`: the second offset within the minute. -/
def timeSecond (t : Time) : Int := t % 60

/-- Go `time.Time.Add`: durations modelled in whole seconds. -/
def addDur (t : Time) (d : Int) : Time := t + d

/-- Faults the modelled Mongo driver can produce from a single call. -/
inductive Fault where
  | notFound
  | duplicateKey
deriving DecidableEq

/-- The token-info capability consumed from the oauth2 framework:
getters for code, access, refresh, their creation times and lifetimes. -/
structure TokenInfo where
  code : String
  codeCreateAt : Time
  codeExpiresIn : Int
  access : String
  accessCreateAt : Time
  accessExpiresIn : Int
  refresh : String
  refreshCreateAt : Time
  refreshExpiresIn : Int
deriving DecidableEq

/-- Zero value of `models.Token` as far as this adapter observes it. -/
def zeroToken : TokenInfo :=
  { code := "", codeCreateAt := 0, codeExpiresIn := 0
    access := "", accessCreateAt := 0, accessExpiresIn := 0
    refresh := "", refreshCreateAt := 0, refreshExpiresIn := 0 }

/-- Go struct `basicData {ID, Data, ExpiredAt}`; `Data` holds the
serialized token info (serialization modelled as the identity). -/
structure basicData where
  ID : String
  Data : TokenInfo
  ExpiredAt : Time
deriving DecidableEq

/-- Go struct `tokenData {ID, BasicID, ExpiredAt}`. -/
structure tokenData where
  ID : String
  BasicID : String
  ExpiredAt : Time
deriving DecidableEq

/-- The three collections the token store uses (default config names
`oauth2_basic`, `oauth2_access`, `oauth2_refresh`, assumed distinct). -/
structure TokenDB where
  basic : List basicData
  access : List tokenData
  refresh : List tokenData
deriving DecidableEq

/-- The empty database. -/
def emptyTokenDB : TokenDB := { basic := [], access := [], refresh := [] }

/-- Mongo `InsertOne` into the basic collection: duplicate `_id` faults,
and a failed single insert leaves the collection untouched. -/
def insertBasic (l : List basicData) (bd : basicData) :
    Except Fault (List basicData) :=
  if (l.find? (fun b => b.ID == bd.ID)).isSome then .error .duplicateKey
  else .ok (bd :: l)

/-- Mongo `InsertOne` into an access/refresh collection. -/
def insertToken (l : List tokenData) (td : tokenData) :
    Except Fault (List tokenData) :=
  if (l.find? (fun t => t.ID == td.ID)).isSome then .error .duplicateKey
  else .ok (td :: l)

/-- Mongo `DeleteOne {_id: k}`: removes the first match, never faults. -/
def deleteToken (l : List tokenData) (k : String) : List tokenData :=
  l.eraseP (fun t => t.ID == k)

/-- Mongo `DeleteOne {_id: k}` on the basic collection. -/
def deleteBasic (l : List basicData) (k : String) : List basicData :=
  l.eraseP (fun b => b.ID == k)

/-- The session wrapper shared by `colHandler` and `dbHandler`, applied
to the inner body's outcome (reached state, optional fault).  Because
the body ran on a fresh background context rather than the session
context, its operations executed outside the started transaction:
`AbortTransaction` rolls nothing back, so the reached state — partial
or not — stands.  Abort and commit themselves succeed in the model, so
the wrapper returns `none` in both branches; on an inner fault the Go
code returns `session.AbortTransaction(ctx)`, not the fault. -/
def txnWrap {σ : Type} (r : σ × Option Fault) : σ × Option Fault :=
  (r.1, none)

/-- Outcome of a handler body that performs a single fallible driver
call: the call either fails (leaving the state untouched, since one
driver call is atomic) or produces the new state. -/
def singleOp {σ : Type} (st : σ) (r : Except Fault σ) : σ × Option Fault :=
  match r with
  | .error e => (st, some e)
  | .ok st2 => (st2, none)

namespace TokenStore

/-- Go: `aexp := info.GetAccessCreateAt().Add(info.GetAccessExpiresIn())`,
then if a refresh token is present and `aexp.Second() > rexp.Second()`
the access expiry is replaced by the refresh expiry. -/
def createAExp (info : TokenInfo) : Time :=
  let aexp := addDur info.accessCreateAt info.accessExpiresIn
  if info.refresh != "" then
    let rexp := addDur info.refreshCreateAt info.refreshExpiresIn
    if timeSecond aexp > timeSecond rexp then rexp else aexp
  else aexp

/-- Go: `rexp` is initialized to `aexp` and replaced by
`refreshCreateAt + refreshExpiresIn` when a refresh token is present. -/
def createRExp (info : TokenInfo) : Time :=
  let aexp := addDur info.accessCreateAt info.accessExpiresIn
  if info.refresh != "" then addDur info.refreshCreateAt info.refreshExpiresIn
  else aexp

/-- The body passed to `dbHandler` in `Create`'s access/refresh branch:
insert the payloads one by one (basic payload, access-index row, and
refresh-index row when a refresh token exists), stopping at the first
fault.  Each insert takes effect immediately (the inner context is not
the session context), so on a fault the inserts already performed
remain in the returned state. -/
def createPayloadLoop (db : TokenDB) (gid : String) (info : TokenInfo)
    (aexp rexp : Time) : TokenDB × Option Fault :=
  match insertBasic db.basic { ID := gid, Data := info, ExpiredAt := rexp } with
  | .error e => (db, some e)
  | .ok b =>
    match insertToken db.access
        { ID := info.access, BasicID := gid, ExpiredAt := aexp } with
    | .error e => ({ db with basic := b }, some e)
    | .ok a =>
      if info.refresh != "" then
        match insertToken db.refresh
            { ID := info.refresh, BasicID := gid, ExpiredAt := rexp } with
        | .error e => ({ db with basic := b, access := a }, some e)
        | .ok r => ({ basic := b, access := a, refresh := r }, none)
      else ({ db with basic := b, access := a }, none)

/-- `TokenStore.Create`: on a non-empty code, a single basic insert
keyed by the code (via `colHandler`); otherwise the payload loop for the
grant (via `dbHandler`).  `gid` is the generated ObjectID hex. -/
def Create (db : TokenDB) (gid : String) (info : TokenInfo) :
    TokenDB × Option Fault :=
  if info.code != "" then
    txnWrap (singleOp db ((insertBasic db.basic
        { ID := info.code, Data := info
          ExpiredAt := addDur info.codeCreateAt info.codeExpiresIn }).map
      (fun b => { db with basic := b })))
  else
    txnWrap (createPayloadLoop db gid info (createAExp info) (createRExp info))

/-- `TokenStore.RemoveByCode`: delete the basic payload keyed by the code. -/
def RemoveByCode (db : TokenDB) (code : String) : TokenDB × Option Fault :=
  txnWrap ({ db with basic := deleteBasic db.basic code }, none)

/-- `TokenStore.RemoveByAccess`: delete the access-index row only. -/
def RemoveByAccess (db : TokenDB) (access : String) : TokenDB × Option Fault :=
  txnWrap ({ db with access := deleteToken db.access access }, none)

/-- `TokenStore.RemoveByRefresh`: delete the refresh-index row only. -/
def RemoveByRefresh (db : TokenDB) (refresh : String) : TokenDB × Option Fault :=
  txnWrap ({ db with refresh := deleteToken db.refresh refresh }, none)

/-- The closure passed to `colHandler` in `getData`: `FindOne` the basic
document by `_id`, then unmarshal its `Data` into `tm` (unmarshal never
fails in the model). -/
def getDataBody (db : TokenDB) (basicID : String) : Except Fault TokenInfo :=
  match db.basic.find? (fun b => b.ID == basicID) with
  | some bd => .ok bd.Data
  | none => .error .notFound

/-- `TokenStore.getData`: `var tm models.Token` starts zero-valued and is
written only when the body succeeds; the returned error is the wrapper's. -/
def getData (db : TokenDB) (basicID : String) : TokenInfo × Option Fault :=
  txnWrap (singleOp zeroToken (getDataBody db basicID))

/-- The closure passed to `colHandler` in `getBasicID`: `FindOne` the
index row by `_id` and read its `BasicID`. -/
def getBasicIDBody (col : List tokenData) (token : String) :
    Except Fault String :=
  match col.find? (fun t => t.ID == token) with
  | some td => .ok td.BasicID
  | none => .error .notFound

/-- `TokenStore.getBasicID`: `basicID` starts `""` and is written only
when the body succeeds; the returned error is the wrapper's. -/
def getBasicID (col : List tokenData) (token : String) :
    String × Option Fault :=
  txnWrap (singleOp "" (getBasicIDBody col token))

/-- `TokenStore.GetByCode`: fetch the basic payload directly by code. -/
def GetByCode (db : TokenDB) (code : String) : Option TokenInfo × Option Fault :=
  let g := getData db code
  (some g.1, g.2)

/-- `TokenStore.GetByAccess`: resolve the access-index row to a
`basicID`; if `err != nil && basicID == ""` return `(nil, err)`,
otherwise fetch the basic payload. -/
def GetByAccess (db : TokenDB) (access : String) :
    Option TokenInfo × Option Fault :=
  let r := getBasicID db.access access
  if r.2.isSome && r.1 == "" then (none, r.2)
  else
    let g := getData db r.1
    (some g.1, g.2)

/-- `TokenStore.GetByRefresh`: same two-step lookup on the refresh
collection. -/
def GetByRefresh (db : TokenDB) (refresh : String) :
    Option TokenInfo × Option Fault :=
  let r := getBasicID db.refresh refresh
  if r.2.isSome && r.1 == "" then (none, r.2)
  else
    let g := getData db r.1
    (some g.1, g.2)

end TokenStore

/-- Go struct `client {ID, Secret, Domain, UserID}`; also stands for the
client-info capability (`models.Client`) the store exchanges with the
framework, since both carry exactly these four strings. -/
structure client where
  ID : String
  Secret : String
  Domain : String
  UserID : String
deriving DecidableEq

namespace ClientStore

/-- The closure passed to `colHandler` in `ClientStore.Set`: build the
entity from the client-info getters and `InsertOne` it. -/
def SetBody (col : List client) (info : client) : Except Fault (List client) :=
  if (col.find? (fun c => c.ID == info.ID)).isSome then .error .duplicateKey
  else .ok (info :: col)

/-- `ClientStore.Set`. -/
def Set (col : List client) (info : client) : List client × Option Fault :=
  txnWrap (singleOp col (SetBody col info))

/-- The closure passed to `colHandler` in `ClientStore.GetByID`:
`FindOne` by `_id` and rebuild a `models.Client` from the entity. -/
def GetByIDBody (col : List client) (id : String) : Except Fault client :=
  match col.find? (fun c => c.ID == id) with
  | some e => .ok { ID := e.ID, Secret := e.Secret, Domain := e.Domain, UserID := e.UserID }
  | none => .error .notFound

/-- `ClientStore.GetByID`: `var info *models.Client` starts nil and is
written only when the body succeeds; the returned error is the wrapper's. -/
def GetByID (col : List client) (id : String) :
    Option client × Option Fault :=
  txnWrap (singleOp (none : Option client) ((GetByIDBody col id).map some))

/-- `ClientStore.RemoveByID`: `DeleteOne` by `_id`, never faults. -/
def RemoveByID (col : List client) (id : String) :
    List client × Option Fault :=
  txnWrap (col.eraseP (fun c => c.ID == id), none)

end ClientStore

/-- Successful `insertBasic` conses the new document onto the collection. -/
lemma insertBasic_ok {l : List basicData} {bd : basicData} {l2 : List basicData}
    (h : insertBasic l bd = .ok l2) : l2 = bd :: l := by
  unfold insertBasic at h
  split at h
  · exact absurd h (by simp)
  · simpa using h.symm

/-- Successful `insertToken` conses the new document onto the collection. -/
lemma insertToken_ok {l : List tokenData} {td : tokenData} {l2 : List tokenData}
    (h : insertToken l td = .ok l2) : l2 = td :: l := by
  unfold insertToken at h
  split at h
  · exact absurd h (by simp)
  · simpa using h.symm

/-- A fresh `_id` makes `insertBasic` succeed with a cons. -/
lemma insertBasic_fresh (l : List basicData) (bd : basicData)
    (h : l.find? (fun b => b.ID == bd.ID) = none) :
    insertBasic l bd = .ok (bd :: l) := by
  unfold insertBasic
  rw [h]
  rfl

/-- A fresh `_id` makes `insertToken` succeed with a cons. -/
lemma insertToken_fresh (l : List tokenData) (td : tokenData)
    (h : l.find? (fun t => t.ID == td.ID) = none) :
    insertToken l td = .ok (td :: l) := by
  unfold insertToken
  rw [h]
  rfl

namespace TokenStore

/-- Shape of any fault-free run of the payload loop: the basic payload,
the access-index row, and (when a refresh token exists) the
refresh-index row are consed onto their collections, all sharing the
generated id. -/
lemma createPayloadLoop_ok {db : TokenDB} {gid : String} {info : TokenInfo}
    {aexp rexp : Time} {db2 : TokenDB}
    (h : createPayloadLoop db gid info aexp rexp = (db2, none)) :
    db2.basic = { ID := gid, Data := info, ExpiredAt := rexp } :: db.basic ∧
    db2.access = { ID := info.access, BasicID := gid, ExpiredAt := aexp } :: db.access ∧
    (db2.refresh = db.refresh ∨
     db2.refresh = { ID := info.refresh, BasicID := gid, ExpiredAt := rexp } :: db.refresh) := by
  unfold createPayloadLoop at h
  cases hb : insertBasic db.basic { ID := gid, Data := info, ExpiredAt := rexp } with
  | error e => rw [hb] at h; simp at h
  | ok b =>
    rw [hb] at h
    cases ha : insertToken db.access
        { ID := info.access, BasicID := gid, ExpiredAt := aexp } with
    | error e => rw [ha] at h; simp at h
    | ok a =>
      rw [ha] at h
      by_cases hr : info.refresh = ""
      · simp only [hr, bne_self_eq_false, Bool.false_eq_true, if_false] at h
        injection h with hst hf
        subst hst
        exact ⟨insertBasic_ok hb, insertToken_ok ha, Or.inl rfl⟩
      · have hbr : (info.refresh != "") = true := by simp [hr]
        rw [hbr] at h
        simp only [if_true] at h
        cases hrr : insertToken db.refresh
            { ID := info.refresh, BasicID := gid, ExpiredAt := rexp } with
        | error e => rw [hrr] at h; simp at h
        | ok r =>
          rw [hrr] at h
          injection h with hst hf
          subst hst
          exact ⟨insertBasic_ok hb, insertToken_ok ha, Or.inr (insertToken_ok hrr)⟩

/-- Fault-free run of `Create` in the access/refresh branch: with the
generated id and the token strings fresh, the whole grant is written
and the wrapper reports no fault. -/
lemma Create_success {db : TokenDB} {gid : String} {info : TokenInfo}
    (hc : info.code = "")
    (f1 : db.basic.find? (fun b => b.ID == gid) = none)
    (f2 : db.access.find? (fun t => t.ID == info.access) = none)
    (f3 : info.refresh ≠ "" → db.refresh.find? (fun t => t.ID == info.refresh) = none) :
    Create db gid info =
      ({ basic := { ID := gid, Data := info, ExpiredAt := createRExp info } :: db.basic,
         access := { ID := info.access, BasicID := gid, ExpiredAt := createAExp info } :: db.access,
         refresh := if info.refresh ≠ "" then
             { ID := info.refresh, BasicID := gid, ExpiredAt := createRExp info } :: db.refresh
           else db.refresh }, none) := by
  have h1 : insertBasic db.basic { ID := gid, Data := info, ExpiredAt := createRExp info } =
      .ok ({ ID := gid, Data := info, ExpiredAt := createRExp info } :: db.basic) :=
    insertBasic_fresh _ _ f1
  have h2 : insertToken db.access
      { ID := info.access, BasicID := gid, ExpiredAt := createAExp info } =
      .ok ({ ID := info.access, BasicID := gid, ExpiredAt := createAExp info } :: db.access) :=
    insertToken_fresh _ _ f2
  have hl : createPayloadLoop db gid info (createAExp info) (createRExp info) =
      ({ basic := { ID := gid, Data := info, ExpiredAt := createRExp info } :: db.basic,
         access := { ID := info.access, BasicID := gid, ExpiredAt := createAExp info } :: db.access,
         refresh := if info.refresh ≠ "" then
             { ID := info.refresh, BasicID := gid, ExpiredAt := createRExp info } :: db.refresh
           else db.refresh }, none) := by
    unfold createPayloadLoop
    rw [h1, h2]
    by_cases hr : info.refresh = ""
    · simp [hr]
    · have h3 : insertToken db.refresh
          { ID := info.refresh, BasicID := gid, ExpiredAt := createRExp info } =
          .ok ({ ID := info.refresh, BasicID := gid, ExpiredAt := createRExp info } :: db.refresh) :=
        insertToken_fresh _ _ (f3 hr)
      rw [h3]
      simp [hr]
  unfold Create
  rw [hc]
  simp only [bne_self_eq_false, Bool.false_eq_true, if_false]
  rw [hl]
  rfl

/-- Case analysis on the state after any `Create`: either nothing was
written (the very first insert faulted), or only one basic payload was
added (the code branch ran, or the grant branch faulted right after its
basic insert), or the grant branch wrote a basic payload, an
access-index row, and possibly a refresh-index row, all sharing the
generated id. -/
lemma Create_state_cases (db : TokenDB) (gid : String) (info : TokenInfo) :
    (Create db gid info).1 = db ∨
    (∃ bd, (Create db gid info).1 = { db with basic := bd :: db.basic }) ∨
    (∃ aexp rexp,
      (Create db gid info).1.basic =
          { ID := gid, Data := info, ExpiredAt := rexp } :: db.basic ∧
      (Create db gid info).1.access =
          { ID := info.access, BasicID := gid, ExpiredAt := aexp } :: db.access ∧
      ((Create db gid info).1.refresh = db.refresh ∨
       (Create db gid info).1.refresh =
          { ID := info.refresh, BasicID := gid, ExpiredAt := rexp } :: db.refresh)) := by
  by_cases hc : info.code = ""
  · have hcr : (Create db gid info).1 =
        (createPayloadLoop db gid info (createAExp info) (createRExp info)).1 := by
      unfold Create
      rw [hc]
      simp only [bne_self_eq_false, Bool.false_eq_true, if_false]
      rfl
    rw [hcr]
    unfold createPayloadLoop
    cases hb : insertBasic db.basic
        { ID := gid, Data := info, ExpiredAt := createRExp info } with
    | error e => exact Or.inl rfl
    | ok b =>
      cases ha : insertToken db.access
          { ID := info.access, BasicID := gid, ExpiredAt := createAExp info } with
      | error e =>
        refine Or.inr (Or.inl
          ⟨{ ID := gid, Data := info, ExpiredAt := createRExp info }, ?_⟩)
        rw [insertBasic_ok hb]
      | ok a =>
        by_cases hr : info.refresh = ""
        · refine Or.inr (Or.inr
            ⟨createAExp info, createRExp info, ?_, ?_, Or.inl ?_⟩)
          · simp only [hr, bne_self_eq_false, Bool.false_eq_true, if_false]
            exact insertBasic_ok hb
          · simp only [hr, bne_self_eq_false, Bool.false_eq_true, if_false]
            exact insertToken_ok ha
          · simp [hr]
        · have hbr : (info.refresh != "") = true := by simp [hr]
          rw [hbr]
          simp only [if_true]
          cases hrr : insertToken db.refresh
              { ID := info.refresh, BasicID := gid, ExpiredAt := createRExp info } with
          | error e =>
            exact Or.inr (Or.inr ⟨createAExp info, createRExp info,
              insertBasic_ok hb, insertToken_ok ha, Or.inl rfl⟩)
          | ok r =>
            exact Or.inr (Or.inr ⟨createAExp info, createRExp info,
              insertBasic_ok hb, insertToken_ok ha, Or.inr (insertToken_ok hrr)⟩)
  · have hcb : (info.code != "") = true := by simp [hc]
    cases hb : insertBasic db.basic
        { ID := info.code, Data := info
          ExpiredAt := addDur info.codeCreateAt info.codeExpiresIn } with
    | error e =>
      left
      unfold Create
      rw [hcb]
      simp only [if_true]
      rw [hb]
      rfl
    | ok b =>
      right; left
      refine ⟨{ ID := info.code, Data := info
                ExpiredAt := addDur info.codeCreateAt info.codeExpiresIn }, ?_⟩
      unfold Create
      rw [hcb]
      simp only [if_true]
      rw [hb, insertBasic_ok hb]
      rfl

end TokenStore

/-- States reachable from the empty database by `TokenStore.Create`
operations alone (any generated id, any token info; a create whose
inner inserts fault leaves whatever partial state those inserts
produced, and such states are reachable too). -/
inductive Reachable : TokenDB → Prop where
  | base : Reachable emptyTokenDB
  | step : ∀ (db : TokenDB) (gid : String) (info : TokenInfo),
      Reachable db → Reachable (TokenStore.Create db gid info).1

/-- Referential integrity of the index collections: every access-index
and refresh-index row's `BasicID` names an existing basic payload. -/
def WellRef (db : TokenDB) : Prop :=
  (∀ td ∈ db.access, ∃ bd ∈ db.basic, bd.ID = td.BasicID) ∧
  (∀ td ∈ db.refresh, ∃ bd ∈ db.basic, bd.ID = td.BasicID)

/-- Sample access/refresh grant used by concrete witnesses. -/
def sampleGrant : TokenInfo :=
  { code := "", codeCreateAt := 0, codeExpiresIn := 0
    access := "acc", accessCreateAt := 1000, accessExpiresIn := 3600
    refresh := "ref", refreshCreateAt := 1000, refreshExpiresIn := 7200 }

/-- Sample authorization-code grant used by concrete witnesses. -/
def sampleCode : TokenInfo :=
  { zeroToken with code := "cod", codeCreateAt := 50, codeExpiresIn := 300 }

/-- Token info carrying a code and both tokens at once. -/
def codeWithTokens : TokenInfo :=
  { code := "cod", codeCreateAt := 10, codeExpiresIn := 600
    access := "acc", accessCreateAt := 10, accessExpiresIn := 3600
    refresh := "ref", refreshCreateAt := 10, refreshExpiresIn := 7200 }

/-- Grant whose raw access expiry 7260 exceeds the refresh expiry 7230
while its second-of-minute (7260 % 60 = 0) does not exceed the refresh
one (7230 % 60 = 30), so the clamp in `Create` does not fire. -/
def clampCexInfo : TokenInfo :=
  { code := "", codeCreateAt := 0, codeExpiresIn := 0
    access := "acc", accessCreateAt := 0, accessExpiresIn := 7260
    refresh := "ref", refreshCreateAt := 0, refreshExpiresIn := 7230 }

/-- Database already holding an access-index row with `_id` `acc`, so
inserting `sampleGrant` faults on the access insert. -/
def dbDupAccess : TokenDB :=
  { basic := [], access := [{ ID := "acc", BasicID := "g0", ExpiredAt := 0 }], refresh := [] }

/-- Sample client record. -/
def sampleClient : client :=
  { ID := "c1", Secret := "s", Domain := "d", UserID := "u" }

/-- Claim C1, counterexample: for the grant `clampCexInfo` (access
expires 7260 s after epoch, refresh 7230 s after epoch), `Create`
stores an access-index expiry of 7260 and a refresh-index expiry of
7230, and 7260 ≤ 7230 fails — the stored access expiry exceeds the
refresh expiry, because the clamp compares `Second()` (second within
the minute), not the timestamps. -/
theorem claim1_counterexample :
    (TokenStore.Create emptyTokenDB "gid1" clampCexInfo).1.access =
      [{ ID := "acc", BasicID := "gid1", ExpiredAt := 7260 }] ∧
    (TokenStore.Create emptyTokenDB "gid1" clampCexInfo).1.refresh =
      [{ ID := "ref", BasicID := "gid1", ExpiredAt := 7230 }] ∧
    ¬ ((7260 : Int) ≤ 7230) :=
  ⟨rfl, rfl, by decide⟩

/-- Claim C1, amended: after a fault-free `Create` of a grant with both
tokens, the stored refresh-index expiry is `refreshCreateAt +
refreshExpiresIn`, and the stored access-index expiry is
`accessCreateAt + accessExpiresIn` clamped to the refresh expiry only
when its second-within-the-minute value (`timeSecond`, i.e. expiry mod
60) strictly exceeds the refresh expiry's; it can therefore exceed the
refresh expiry. -/
theorem claim1_amended_clamp_rule (db : TokenDB) (gid : String) (info : TokenInfo)
    (hc : info.code = "") (hr : info.refresh ≠ "")
    (f1 : db.basic.find? (fun b => b.ID == gid) = none)
    (f2 : db.access.find? (fun t => t.ID == info.access) = none)
    (f3 : db.refresh.find? (fun t => t.ID == info.refresh) = none) :
    (TokenStore.Create db gid info).1.access =
      { ID := info.access, BasicID := gid,
        ExpiredAt :=
          if timeSecond (addDur info.accessCreateAt info.accessExpiresIn) >
             timeSecond (addDur info.refreshCreateAt info.refreshExpiresIn)
          then addDur info.refreshCreateAt info.refreshExpiresIn
          else addDur info.accessCreateAt info.accessExpiresIn } :: db.access ∧
    (TokenStore.Create db gid info).1.refresh =
      { ID := info.refresh, BasicID := gid,
        ExpiredAt := addDur info.refreshCreateAt info.refreshExpiresIn } :: db.refresh := by
  rw [TokenStore.Create_success hc f1 f2 (fun _ => f3)]
  constructor
  · simp [TokenStore.createAExp, hr]
  · simp [TokenStore.createRExp, hr]

/-- Witness for the amended C1 at the concrete grant `sampleGrant`. -/
theorem claim1_amended_clamp_rule_witness :
    (TokenStore.Create emptyTokenDB "g" sampleGrant).1.access =
      { ID := sampleGrant.access, BasicID := "g",
        ExpiredAt :=
          if timeSecond (addDur sampleGrant.accessCreateAt sampleGrant.accessExpiresIn) >
             timeSecond (addDur sampleGrant.refreshCreateAt sampleGrant.refreshExpiresIn)
          then addDur sampleGrant.refreshCreateAt sampleGrant.refreshExpiresIn
          else addDur sampleGrant.accessCreateAt sampleGrant.accessExpiresIn } ::
        emptyTokenDB.access ∧
    (TokenStore.Create emptyTokenDB "g" sampleGrant).1.refresh =
      { ID := sampleGrant.refresh, BasicID := "g",
        ExpiredAt := addDur sampleGrant.refreshCreateAt sampleGrant.refreshExpiresIn } ::
        emptyTokenDB.refresh :=
  claim1_amended_clamp_rule emptyTokenDB "g" sampleGrant rfl (by decide) rfl rfl rfl

/-- Claim C2: faults of the inner database action are not surfaced to
the caller.  A duplicate-key fault inside `ClientStore.Set` and a
not-found fault inside `TokenStore.getData` both make the wrapper
return the abort call's own result, `none` — not the inner fault. -/
theorem claim2_faults_swallowed :
    ClientStore.SetBody [sampleClient] sampleClient = .error .duplicateKey ∧
    ClientStore.Set [sampleClient] sampleClient = ([sampleClient], none) ∧
    TokenStore.getDataBody emptyTokenDB "missing" = .error .notFound ∧
    TokenStore.getData emptyTokenDB "missing" = (zeroToken, none) :=
  ⟨rfl, rfl, rfl, rfl⟩

/-- Claim C3: a lookup of an absent token does not fail with `NotFound`
and the short-circuit on an empty `basicID` never fires: `getBasicID`
yields `("", none)` (its inner not-found fault is swallowed by the
wrapper), so `GetByAccess`/`GetByRefresh` proceed to the second step
and return the zero-valued token with no error. -/
theorem claim3_lookup_miss_not_notFound :
    TokenStore.getBasicIDBody emptyTokenDB.access "missing" = .error .notFound ∧
    TokenStore.getBasicID emptyTokenDB.access "missing" = ("", none) ∧
    TokenStore.GetByAccess emptyTokenDB "missing" = (some zeroToken, none) ∧
    TokenStore.GetByRefresh emptyTokenDB "missing" = (some zeroToken, none) :=
  ⟨rfl, rfl, rfl, rfl⟩

/-- Claim C4: for a token info with a non-empty authorization code (not
already stored), `Create` inserts exactly one basic payload keyed by
the code itself, expiring at `codeCreateAt + codeExpiresIn`, and leaves
the access and refresh collections untouched. -/
theorem claim4_code_branch (db : TokenDB) (gid : String) (info : TokenInfo)
    (hc : info.code ≠ "")
    (hf : db.basic.find? (fun b => b.ID == info.code) = none) :
    TokenStore.Create db gid info =
      ({ db with
           basic :=
             { ID := info.code, Data := info
               ExpiredAt := addDur info.codeCreateAt info.codeExpiresIn } :: db.basic }, none) := by
  have hcb : (info.code != "") = true := by simp [hc]
  have hb : insertBasic db.basic
      { ID := info.code, Data := info
        ExpiredAt := addDur info.codeCreateAt info.codeExpiresIn } =
      .ok ({ ID := info.code, Data := info
             ExpiredAt := addDur info.codeCreateAt info.codeExpiresIn } :: db.basic) :=
    insertBasic_fresh _ _ hf
  unfold TokenStore.Create
  rw [hcb]
  simp only [if_true]
  rw [hb]
  rfl

/-- Witness for C4 at the concrete code grant `sampleCode`. -/
theorem claim4_code_branch_witness :
    TokenStore.Create emptyTokenDB "g" sampleCode =
      ({ emptyTokenDB with
           basic :=
             [{ ID := sampleCode.code, Data := sampleCode
                ExpiredAt := addDur sampleCode.codeCreateAt sampleCode.codeExpiresIn }] }, none) :=
  claim4_code_branch emptyTokenDB "g" sampleCode (by decide) rfl

/-- Claim C5 (refuted): a fault inside the payload loop does NOT leave
the store unchanged.  The wrappers pass a fresh background-derived
context — not the session context — to the inner function, so the
inserts run outside the started transaction and `AbortTransaction`
rolls nothing back.  Concretely: creating `sampleGrant` over
`dbDupAccess` faults with `duplicateKey` on the access-index insert,
yet `Create` returns (with a nil error) a state that still contains the
basic payload written just before the fault — a strict subset of the
grant's rows persists, and the resulting state differs from the
initial one. -/
theorem claim5_partial_grant_persists :
    (TokenStore.createPayloadLoop dbDupAccess "g1" sampleGrant
        (TokenStore.createAExp sampleGrant) (TokenStore.createRExp sampleGrant)).2 =
      some Fault.duplicateKey ∧
    TokenStore.Create dbDupAccess "g1" sampleGrant =
      ({ dbDupAccess with
           basic := [{ ID := "g1", Data := sampleGrant, ExpiredAt := 8200 }] }, none) ∧
    ({ dbDupAccess with
         basic := [{ ID := "g1", Data := sampleGrant, ExpiredAt := 8200 }] } : TokenDB) ≠
      dbDupAccess :=
  ⟨rfl, rfl, by decide⟩

/-- Claim C6: `Set` then `GetByID` round-trips the client record
(id, secret, domain, userID all equal), and after `RemoveByID` the
record is gone — but `GetByID` then returns `(none, none)`: a nil
client with a nil error, not a `NotFound` fault, because the wrapper
returns the abort's result instead of the inner not-found fault. -/
theorem claim6_client_roundtrip_remove :
    ClientStore.Set [] sampleClient = ([sampleClient], none) ∧
    ClientStore.GetByID [sampleClient] "c1" = (some sampleClient, none) ∧
    ClientStore.RemoveByID [sampleClient] "c1" = ([], none) ∧
    ClientStore.GetByIDBody [] "c1" = .error .notFound ∧
    ClientStore.GetByID [] "c1" = (none, none) :=
  ⟨rfl, rfl, rfl, rfl, rfl⟩

/-- Claim C7: for a grant with `accessExpiresIn = 3600`,
`refreshExpiresIn = 7200`, both created at the same time `T`, `Create`
stores an access-index row expiring at `T + 3600`, a refresh-index row
expiring at `T + 7200`, and a basic payload expiring at `T + 7200`
(the clamp does not fire since both expiries share `T`'s second of the
minute). -/
theorem claim7_concrete_expiries (db : TokenDB) (gid : String) (T : Int) (info : TokenInfo)
    (hc : info.code = "") (hra : info.refresh ≠ "")
    (h1 : info.accessCreateAt = T) (h2 : info.accessExpiresIn = 3600)
    (h3 : info.refreshCreateAt = T) (h4 : info.refreshExpiresIn = 7200)
    (f1 : db.basic.find? (fun b => b.ID == gid) = none)
    (f2 : db.access.find? (fun t => t.ID == info.access) = none)
    (f3 : db.refresh.find? (fun t => t.ID == info.refresh) = none) :
    (TokenStore.Create db gid info).1.access =
      { ID := info.access, BasicID := gid, ExpiredAt := T + 3600 } :: db.access ∧
    (TokenStore.Create db gid info).1.refresh =
      { ID := info.refresh, BasicID := gid, ExpiredAt := T + 7200 } :: db.refresh ∧
    (TokenStore.Create db gid info).1.basic =
      { ID := gid, Data := info, ExpiredAt := T + 7200 } :: db.basic := by
  have hcmp : ¬ ((T + 3600) % 60 > (T + 7200) % 60) := by omega
  have ha : TokenStore.createAExp info = T + 3600 := by
    simp only [TokenStore.createAExp, addDur, timeSecond, h1, h2, h3, h4]
    simp [hra, hcmp]
  have hb : TokenStore.createRExp info = T + 7200 := by
    simp [TokenStore.createRExp, addDur, h3, h4, hra]
  rw [TokenStore.Create_success hc f1 f2 (fun _ => f3)]
  refine ⟨?_, ?_, ?_⟩ <;> simp [ha, hb, hra]

/-- Witness for C7 at `sampleGrant` (T = 1000) on the empty database. -/
theorem claim7_concrete_expiries_witness :
    (TokenStore.Create emptyTokenDB "g" sampleGrant).1.access =
      { ID := sampleGrant.access, BasicID := "g", ExpiredAt := 1000 + 3600 } ::
        emptyTokenDB.access ∧
    (TokenStore.Create emptyTokenDB "g" sampleGrant).1.refresh =
      { ID := sampleGrant.refresh, BasicID := "g", ExpiredAt := 1000 + 7200 } ::
        emptyTokenDB.refresh ∧
    (TokenStore.Create emptyTokenDB "g" sampleGrant).1.basic =
      { ID := "g", Data := sampleGrant, ExpiredAt := 1000 + 7200 } ::
        emptyTokenDB.basic :=
  claim7_concrete_expiries emptyTokenDB "g" 1000 sampleGrant rfl (by decide)
    rfl rfl rfl rfl rfl rfl rfl

/-- Claim C8: `RemoveByAccess` touches only the access-index
collection: the basic payloads and the refresh-index rows are exactly
those of the initial database, the access collection loses (at most)
the row keyed by the token, and no fault is reported. -/
theorem claim8_remove_access_no_cascade (db : TokenDB) (a : String) :
    (TokenStore.RemoveByAccess db a).1.basic = db.basic ∧
    (TokenStore.RemoveByAccess db a).1.refresh = db.refresh ∧
    (TokenStore.RemoveByAccess db a).1.access = deleteToken db.access a ∧
    (TokenStore.RemoveByAccess db a).2 = none :=
  ⟨rfl, rfl, rfl, rfl⟩

/-- Claim C9: in every state reachable from the empty database by
`Create` operations, every access-index and refresh-index row's
`BasicID` names a basic payload present in the basic collection; the
rows written by one grant all carry the generated id of the basic
payload written by the same call, and the basic payload is written
before the index rows. -/
theorem claim9_index_rows_reference_basic (db : TokenDB) (h : Reachable db) :
    WellRef db := by
  induction h with
  | base => exact ⟨by simp [emptyTokenDB], by simp [emptyTokenDB]⟩
  | step db gid info hr ih =>
    rcases TokenStore.Create_state_cases db gid info with hs | ⟨bd, hs⟩ |
      ⟨aexp, rexp, hb, ha, hrf⟩
    · rw [hs]; exact ih
    · rw [hs]
      constructor
      · intro td htd
        obtain ⟨bd2, hbd, hid⟩ := ih.1 td htd
        exact ⟨bd2, List.mem_cons_of_mem _ hbd, hid⟩
      · intro td htd
        obtain ⟨bd2, hbd, hid⟩ := ih.2 td htd
        exact ⟨bd2, List.mem_cons_of_mem _ hbd, hid⟩
    · constructor
      · intro td htd
        rw [ha] at htd
        rcases List.mem_cons.mp htd with heq | hmem
        · refine ⟨{ ID := gid, Data := info, ExpiredAt := rexp }, ?_, ?_⟩
          · rw [hb]; exact List.mem_cons_self _ _
          · rw [heq]
        · obtain ⟨bd2, hbd, hid⟩ := ih.1 td hmem
          exact ⟨bd2, by rw [hb]; exact List.mem_cons_of_mem _ hbd, hid⟩
      · intro td htd
        rcases hrf with hrf | hrf
        · rw [hrf] at htd
          obtain ⟨bd2, hbd, hid⟩ := ih.2 td htd
          exact ⟨bd2, by rw [hb]; exact List.mem_cons_of_mem _ hbd, hid⟩
        · rw [hrf] at htd
          rcases List.mem_cons.mp htd with heq | hmem
          · refine ⟨{ ID := gid, Data := info, ExpiredAt := rexp }, ?_, ?_⟩
            · rw [hb]; exact List.mem_cons_self _ _
            · rw [heq]
          · obtain ⟨bd2, hbd, hid⟩ := ih.2 td hmem
            exact ⟨bd2, by rw [hb]; exact List.mem_cons_of_mem _ hbd, hid⟩

/-- Witness for C9: the state after one `Create` of `sampleGrant` from
the empty database is well-referenced. -/
theorem claim9_index_rows_reference_basic_witness :
    WellRef (TokenStore.Create emptyTokenDB "g" sampleGrant).1 :=
  claim9_index_rows_reference_basic _
    (Reachable.step emptyTokenDB "g" sampleGrant Reachable.base)

/-- Claim C10: a non-empty authorization code makes `Create` take the
code branch unconditionally, even when access and/or refresh tokens are
also present: the access and refresh index collections are left exactly
as they were, so a token not indexed before the call still resolves to
no `basicID` afterwards (`getBasicID` yields `("", none)`). -/
theorem claim10_code_branch_shadows_tokens (db : TokenDB) (gid : String) (info : TokenInfo)
    (hc : info.code ≠ "") :
    (TokenStore.Create db gid info).1.access = db.access ∧
    (TokenStore.Create db gid info).1.refresh = db.refresh ∧
    (db.access.find? (fun t => t.ID == info.access) = none →
      TokenStore.getBasicID (TokenStore.Create db gid info).1.access info.access =
        ("", none)) ∧
    (db.refresh.find? (fun t => t.ID == info.refresh) = none →
      TokenStore.getBasicID (TokenStore.Create db gid info).1.refresh info.refresh =
        ("", none)) := by
  have hcb : (info.code != "") = true := by simp [hc]
  have hstate : (TokenStore.Create db gid info).1.access = db.access ∧
      (TokenStore.Create db gid info).1.refresh = db.refresh := by
    unfold TokenStore.Create
    rw [hcb]
    simp only [if_true]
    cases hb : insertBasic db.basic
        { ID := info.code, Data := info
          ExpiredAt := addDur info.codeCreateAt info.codeExpiresIn } with
    | error e => exact ⟨rfl, rfl⟩
    | ok b => exact ⟨rfl, rfl⟩
  refine ⟨hstate.1, hstate.2, ?_, ?_⟩
  · intro hf
    rw [hstate.1]
    simp [TokenStore.getBasicID, TokenStore.getBasicIDBody, hf, singleOp, txnWrap]
  · intro hf
    rw [hstate.2]
    simp [TokenStore.getBasicID, TokenStore.getBasicIDBody, hf, singleOp, txnWrap]

/-- Witness for C10 at `codeWithTokens` (code and both tokens present)
on the empty database: the index collections stay empty and neither
token resolves to a `basicID`. -/
theorem claim10_code_branch_shadows_tokens_witness :
    (TokenStore.Create emptyTokenDB "g" codeWithTokens).1.access = emptyTokenDB.access ∧
    (TokenStore.Create emptyTokenDB "g" codeWithTokens).1.refresh = emptyTokenDB.refresh ∧
    TokenStore.getBasicID (TokenStore.Create emptyTokenDB "g" codeWithTokens).1.access
      "acc" = ("", none) ∧
    TokenStore.getBasicID (TokenStore.Create emptyTokenDB "g" codeWithTokens).1.refresh
      "ref" = ("", none) := by
  obtain ⟨h1, h2, h3, h4⟩ :=
    claim10_code_branch_shadows_tokens emptyTokenDB "g" codeWithTokens (by decide)
  exact ⟨h1, h2, h3 rfl, h4 rfl⟩

end OAuth2Mongo
